import Mathlib

/-!
Shallow embedding of `ChipsetMultipleFinal.py` (the Chipset History
Comparator) and proofs about it.

Modelling conventions:
* A row of one period's table is a `ChipsetRecord`: the identifier column
  `Chipset SP` (where `none` models a NaN cell or a missing field) together
  with the remaining named columns as an association list `payload`
  (column name, cell value); integer cell values such as the display
  ordinal are modelled by their decimal strings.
* The input mapping `data_dict` is modelled, after the `sorted(keys)` step,
  as the list of its per-period record collections in ascending key order.
* Python sets (`chipset_history[year]`, the running union, the future
  union, the window sets) are used by the program only through membership
  tests, so they are modelled as `List String` values consulted only via
  `List.contains`; set difference, union and intersection become the
  corresponding membership filters and concatenations.
* `Series.isin` applied to the identifier column is `memOpt`: a NaN
  identifier matches no set of identifiers.
-/

/-- One row of a period's table: the `Chipset SP` identifier (`none` for a
NaN or missing value) plus the remaining named columns carried as opaque
payload, in column order. -/
structure ChipsetRecord where
  chipsetSP : Option String
  payload : List (String × String)
deriving DecidableEq, Repr

/-- Line 30: `set(data_dict[year]['Chipset SP'].dropna().unique())` — the
identifiers of one period's records with NaN values dropped.  Modelled as a
list read only through membership, so deduplication is immaterial. -/
def chipsetSet (recs : List ChipsetRecord) : List String :=
  recs.filterMap (fun r => r.chipsetSP)

/-- Union of the identifier sets of a list of periods, as built by
`set().union(*[chipset_history[y] for y in ...])` on line 44. -/
def chipsetUnion (ps : List (List ChipsetRecord)) : List String :=
  (ps.map chipsetSet).flatten

/-- `Series.isin` on the identifier of one record: a NaN identifier is in
no identifier set. -/
def memOpt (v : Option String) (s : List String) : Bool :=
  match v with
  | none => false
  | some a => s.contains a

/-- Lines 33-38, the Added loop: `all_previous_chipsets` is the running
union `u`; each period appends its rows whose identifier is in the freshly
computed difference `chipset_history[year] - all_previous_chipsets`, and
the running union is extended by the period's identifier set. -/
def addedPass : List (List ChipsetRecord) → List String → List ChipsetRecord
  | [], _ => []
  | p :: rest, u =>
      let newly := (chipsetSet p).filter (fun x => !(u.contains x))
      p.filter (fun r => memOpt r.chipsetSP newly) ++
        addedPass rest (u ++ chipsetSet p)

/-- Lines 40-47, the Removed candidate loop: every period but the last
appends its rows whose identifier is in
`chipset_history[prev_year] - later_years_chipsets`.  (The accumulator
`removed_chipsets_set` of lines 41/46 is never read afterwards and is
omitted.) -/
def removedPass : List (List ChipsetRecord) → List ChipsetRecord
  | [] => []
  | [_] => []
  | p :: q :: rest =>
      let rem := (chipsetSet p).filter
        (fun x => !((chipsetUnion (q :: rest)).contains x))
      p.filter (fun r => memOpt r.chipsetSP rem) ++ removedPass (q :: rest)

/-- Lines 49-55, the Reappeared loop (record part): each window of three
consecutive periods appends the rows of its last period whose identifier
is in `(older - prev) & curr`. -/
def reappearedPass : List (List ChipsetRecord) → List ChipsetRecord
  | p0 :: p1 :: p2 :: rest =>
      let w := ((chipsetSet p0).filter
          (fun x => !((chipsetSet p1).contains x))).filter
        (fun x => (chipsetSet p2).contains x)
      p2.filter (fun r => memOpt r.chipsetSP w) ++
        reappearedPass (p1 :: p2 :: rest)
  | _ => []

/-- Lines 50-54, the Reappeared loop (set part): `reappeared_chipsets_set`,
the union of the window sets `(older - prev) & curr` over all windows.
The loop of lines 51-55 accumulates the records and this set side by side;
the two accumulations do not interact, so they are embedded as two
functions. -/
def reapSetPass : List (List ChipsetRecord) → List String
  | p0 :: p1 :: p2 :: rest =>
      ((chipsetSet p0).filter
          (fun x => !((chipsetSet p1).contains x))).filter
        (fun x => (chipsetSet p2).contains x) ++
        reapSetPass (p1 :: p2 :: rest)
  | _ => []

/-- Lines 56-58, the reconciliation pass over the Removed candidates:
first drop every entry whose identifier is in `reappeared_chipsets_set`,
then keep only entries whose identifier is in
`chipset_history[year_list[0]]`, the first period's identifier set.
(`ps.headD []` stands for `year_list[0]`; in the Python comprehension that
subscript is evaluated lazily, only when some entry survives the first
filter, and any surviving entry forces `year_list` to be non-empty — see
`compare_chipsetsRun` for the exception-aware reading.) -/
def removedReconciled (ps : List (List ChipsetRecord)) : List ChipsetRecord :=
  ((removedPass ps).filter
      (fun e => !(memOpt e.chipsetSP (reapSetPass ps)))).filter
    (fun e => memOpt e.chipsetSP (chipsetSet (ps.headD [])))

/-- The Added output collection of `compare_chipsets`, before the display
decoration of line 60. -/
def addedList (ps : List (List ChipsetRecord)) : List ChipsetRecord :=
  addedPass ps []

/-- The Removed output collection of `compare_chipsets` (after
reconciliation), before the display decoration of line 60. -/
def removedList (ps : List (List ChipsetRecord)) : List ChipsetRecord :=
  removedReconciled ps

/-- The Reappeared output collection of `compare_chipsets`, before the
display decoration of line 60. -/
def reappearedList (ps : List (List ChipsetRecord)) : List ChipsetRecord :=
  reappearedPass ps

/-- Lines 17-18 of `add_serial_number`: drop any existing `Sr. No` column
of a record. -/
def dropSr (r : ChipsetRecord) : ChipsetRecord :=
  ⟨r.chipsetSP, r.payload.filter (fun kv => !(kv.1 == "Sr. No"))⟩

/-- Line 19 of `add_serial_number`, for one row: prepend the fresh
`Sr. No` column with ordinal value `n`. -/
def decorate (n : Nat) (r : ChipsetRecord) : ChipsetRecord :=
  ⟨r.chipsetSP, ("Sr. No", toString n) :: (dropSr r).payload⟩

/-- Rows get consecutive ordinals starting at `n`. -/
def addSerialFrom (n : Nat) : List ChipsetRecord → List ChipsetRecord
  | [] => []
  | r :: rs => decorate n r :: addSerialFrom (n + 1) rs

/-- Lines 14-20: `add_serial_number` — drop any pre-existing `Sr. No`
column and insert a fresh one holding 1, 2, ... in row order. -/
def add_serial_number (recs : List ChipsetRecord) : List ChipsetRecord :=
  addSerialFrom 1 recs

/-- Lines 22-60: `compare_chipsets` — the three output collections in
order (Added, Removed, Reappeared), each decorated by
`add_serial_number` as on line 60. -/
def compare_chipsets (ps : List (List ChipsetRecord)) :
    List ChipsetRecord × List ChipsetRecord × List ChipsetRecord :=
  (add_serial_number (addedList ps), add_serial_number (removedList ps),
    add_serial_number (reappearedList ps))

/-- `compare_chipsets` with Python's exception behaviour made explicit.
Under the record model (the identifier key is always accessible, possibly
NaN) the only expression of the function that can raise is the subscript
`chipset_history[year_list[0]]` on line 58, an IndexError when `year_list`
is empty; the comprehension evaluates it only while iterating over the
entries that survived the line-57 filter, so it is reached exactly when
that list is non-empty while the input mapping is empty. -/
def compare_chipsetsRun (ps : List (List ChipsetRecord)) :
    Except String
      (List ChipsetRecord × List ChipsetRecord × List ChipsetRecord) :=
  match (removedPass ps).filter
      (fun e => !(memOpt e.chipsetSP (reapSetPass ps))), ps with
  | _ :: _, [] => Except.error "IndexError: year_list[0]"
  | _, _ => Except.ok (compare_chipsets ps)

/-! ## Specification-side definitions

The following definitions transcribe the formulas of spec.md §4.1 (steps
3-6) at the level of individual records: a record is kept when its
identifier satisfies the spec's set-membership formula.  They are compared
with the operational definitions above, which transcribe the Python
loops. -/

/-- Spec step 3 (Added): `newly_added_i = S_i − U`; a record of period `i`
is appended when its identifier is in `S_i` and not in the running union
`U`, and then `U := U ∪ S_i`. -/
def addedSpec : List (List ChipsetRecord) → List String → List ChipsetRecord
  | [], _ => []
  | p :: rest, u =>
      p.filter (fun r => memOpt r.chipsetSP (chipsetSet p) &&
        !(memOpt r.chipsetSP u)) ++
        addedSpec rest (u ++ chipsetSet p)

/-- Spec step 4 (Removed candidates): for `i = 1..n−1` a record of period
`i` is appended when its identifier is in `S_i` and absent from the union
`S_{i+1} ∪ ... ∪ S_n` of all later periods' identifier sets; the last
period contributes nothing. -/
def removedCandSpec : List (List ChipsetRecord) → List ChipsetRecord
  | [] => []
  | [_] => []
  | p :: q :: rest =>
      p.filter (fun r => memOpt r.chipsetSP (chipsetSet p) &&
        !(memOpt r.chipsetSP (chipsetUnion (q :: rest)))) ++
        removedCandSpec (q :: rest)

/-- Spec step 5 (Reappeared): for `i = 3..n` a record of period `i` is
appended when its identifier is in `(S_{i−2} − S_{i−1}) ∩ S_i`; each
3-period window is evaluated independently. -/
def reappearedSpec : List (List ChipsetRecord) → List ChipsetRecord
  | p0 :: p1 :: p2 :: rest =>
      p2.filter (fun r => memOpt r.chipsetSP (chipsetSet p0) &&
        !(memOpt r.chipsetSP (chipsetSet p1)) &&
        memOpt r.chipsetSP (chipsetSet p2)) ++
        reappearedSpec (p1 :: p2 :: rest)
  | _ => []

/-- Spec step 6 (Reconciliation): from the Removed candidates keep exactly
the records whose identifier is not among the identifiers classified as
Reappeared and is a member of `S_1`, the first period's identifier set. -/
def removedFinalSpec (ps : List (List ChipsetRecord)) : List ChipsetRecord :=
  (removedCandSpec ps).filter
    (fun r => !(memOpt r.chipsetSP (chipsetSet (reappearedSpec ps))) &&
      memOpt r.chipsetSP (chipsetSet (ps.headD [])))

/-- The claim C6 reading of the identifier set: identifiers excluded when
null or empty. -/
def chipsetSetExclEmpty (recs : List ChipsetRecord) : List String :=
  (recs.filterMap (fun r => r.chipsetSP)).filter (fun a => !(a == ""))

/-! ## Helper lemmas -/

theorem contains_iff {l : List String} {a : String} :
    l.contains a = true ↔ a ∈ l :=
  List.elem_iff

theorem mem_chipsetSet {recs : List ChipsetRecord} {a : String} :
    a ∈ chipsetSet recs ↔ ∃ r ∈ recs, r.chipsetSP = some a := by
  simp [chipsetSet, List.mem_filterMap]

theorem contains_filter (l : List String) (p : String → Bool) (a : String) :
    (l.filter p).contains a = (l.contains a && p a) := by
  rw [Bool.eq_iff_iff]
  simp only [Bool.and_eq_true, contains_iff, List.mem_filter]

theorem memOpt_iff {v : Option String} {s : List String} :
    memOpt v s = true ↔ ∃ a, v = some a ∧ a ∈ s := by
  cases v with
  | none => simp [memOpt]
  | some a => simp [memOpt, contains_iff]

/-- Membership in a difference set, at the level of record identifiers. -/
theorem memOpt_diff (v : Option String) (l u : List String) :
    memOpt v (l.filter (fun x => !(u.contains x))) =
      (memOpt v l && !(memOpt v u)) := by
  cases v with
  | none => rfl
  | some a => simp only [memOpt, contains_filter]

/-- Membership in a window set `(s0 − s1) ∩ s2`, at the level of record
identifiers. -/
theorem memOpt_window (v : Option String) (s0 s1 s2 : List String) :
    memOpt v ((s0.filter (fun x => !(s1.contains x))).filter
        (fun x => s2.contains x)) =
      (memOpt v s0 && !(memOpt v s1) && memOpt v s2) := by
  cases v with
  | none => rfl
  | some a => simp only [memOpt, contains_filter, Bool.and_assoc]

/-- Two membership-equal identifier sets give the same `contains` tests. -/
theorem contains_eq_of_mem_iff {l m : List String}
    (h : ∀ x, x ∈ l ↔ x ∈ m) (a : String) : l.contains a = m.contains a := by
  rw [Bool.eq_iff_iff, contains_iff, contains_iff]
  exact h a

theorem memOpt_eq_of_mem_iff {l m : List String}
    (h : ∀ x, x ∈ l ↔ x ∈ m) (v : Option String) :
    memOpt v l = memOpt v m := by
  cases v with
  | none => rfl
  | some a => exact contains_eq_of_mem_iff h a

/-- The Added loop filters by membership in the computed difference list;
the spec filters by the conjunction of the two memberships. -/
theorem addedPass_eq_spec :
    ∀ (ps : List (List ChipsetRecord)) (u : List String),
      addedPass ps u = addedSpec ps u
  | [], _ => rfl
  | p :: rest, u => by
      simp only [addedPass, addedSpec]
      rw [addedPass_eq_spec rest]
      congr 1
      exact List.filter_congr
        (fun r _ => memOpt_diff r.chipsetSP (chipsetSet p) u)

theorem removedPass_eq_spec :
    ∀ ps : List (List ChipsetRecord), removedPass ps = removedCandSpec ps
  | [] => rfl
  | [_] => rfl
  | p :: q :: rest => by
      simp only [removedPass, removedCandSpec]
      rw [removedPass_eq_spec (q :: rest)]
      congr 1
      exact List.filter_congr
        (fun r _ =>
          memOpt_diff r.chipsetSP (chipsetSet p) (chipsetUnion (q :: rest)))

theorem reappearedPass_eq_spec :
    ∀ ps : List (List ChipsetRecord), reappearedPass ps = reappearedSpec ps
  | [] => rfl
  | [_] => rfl
  | [_, _] => rfl
  | p0 :: p1 :: p2 :: rest => by
      simp only [reappearedPass, reappearedSpec]
      rw [reappearedPass_eq_spec (p1 :: p2 :: rest)]
      congr 1
      exact List.filter_congr
        (fun r _ =>
          memOpt_window r.chipsetSP (chipsetSet p0) (chipsetSet p1)
            (chipsetSet p2))

/-- Filtering a period by identifier-membership in `w` yields a record
list whose identifier set is membership-equal to `w`, provided every
element of `w` occurs as an identifier of the period. -/
theorem mem_chipsetSet_filter_memOpt {p : List ChipsetRecord}
    {w : List String} (hw : ∀ y ∈ w, y ∈ chipsetSet p) (x : String) :
    x ∈ chipsetSet (p.filter (fun r => memOpt r.chipsetSP w)) ↔ x ∈ w := by
  constructor
  · intro h
    rcases mem_chipsetSet.mp h with ⟨r, hr, hid⟩
    rcases List.mem_filter.mp hr with ⟨-, hc⟩
    rcases memOpt_iff.mp hc with ⟨a, ha, haw⟩
    rw [hid] at ha
    cases ha
    exact haw
  · intro hx
    rcases mem_chipsetSet.mp (hw x hx) with ⟨r, hr, hid⟩
    exact mem_chipsetSet.mpr
      ⟨r, List.mem_filter.mpr ⟨hr, memOpt_iff.mpr ⟨x, hid, hx⟩⟩, hid⟩

/-- The accumulated `reappeared_chipsets_set` has the same members as the
set of identifiers of the records emitted as Reappeared. -/
theorem mem_reapSetPass_iff :
    ∀ (ps : List (List ChipsetRecord)) (x : String),
      x ∈ reapSetPass ps ↔ x ∈ chipsetSet (reappearedPass ps)
  | [], _ => Iff.rfl
  | [_], _ => Iff.rfl
  | [_, _], _ => Iff.rfl
  | p0 :: p1 :: p2 :: rest, x => by
      simp only [reapSetPass, reappearedPass, chipsetSet,
        List.filterMap_append, List.mem_append]
      constructor
      · intro h
        rcases h with h | h
        · refine Or.inl ?_
          have hw : ∀ y ∈ ((chipsetSet p0).filter
                (fun z => !((chipsetSet p1).contains z))).filter
              (fun z => (chipsetSet p2).contains z), y ∈ chipsetSet p2 := by
            intro y hy
            exact contains_iff.mp (List.mem_filter.mp hy).2
          exact (mem_chipsetSet_filter_memOpt hw x).mpr h
        · exact Or.inr ((mem_reapSetPass_iff (p1 :: p2 :: rest) x).mp h)
      · intro h
        rcases h with h | h
        · refine Or.inl ?_
          have hw : ∀ y ∈ ((chipsetSet p0).filter
                (fun z => !((chipsetSet p1).contains z))).filter
              (fun z => (chipsetSet p2).contains z), y ∈ chipsetSet p2 := by
            intro y hy
            exact contains_iff.mp (List.mem_filter.mp hy).2
          exact (mem_chipsetSet_filter_memOpt hw x).mp h
        · exact Or.inr ((mem_reapSetPass_iff (p1 :: p2 :: rest) x).mpr h)

/-- The two reconciliation filters of lines 57-58 equal the single spec
filter of step 6. -/
theorem removedReconciled_eq_spec (ps : List (List ChipsetRecord)) :
    removedReconciled ps = removedFinalSpec ps := by
  have hmem : ∀ x, x ∈ reapSetPass ps ↔ x ∈ chipsetSet (reappearedSpec ps) := by
    intro x
    rw [← reappearedPass_eq_spec]
    exact mem_reapSetPass_iff ps x
  unfold removedReconciled removedFinalSpec
  rw [List.filter_filter, removedPass_eq_spec]
  refine List.filter_congr (fun r _ => ?_)
  simp only [memOpt_eq_of_mem_iff hmem r.chipsetSP, Bool.and_comm]

theorem filter_filter_self {α : Type} (q : α → Bool) (l : List α) :
    (l.filter q).filter q = l.filter q := by
  rw [List.filter_filter]
  exact List.filter_congr (fun a _ => Bool.and_self (q a))

/-- Decorating a row does not change the identifier. -/
theorem chipsetSP_decorate (n : Nat) (r : ChipsetRecord) :
    (decorate n r).chipsetSP = r.chipsetSP := rfl

/-- Decorating a row does not change its payload outside the `Sr. No`
column. -/
theorem dropSr_decorate (n : Nat) (r : ChipsetRecord) :
    (dropSr (decorate n r)).payload = (dropSr r).payload := by
  show ((("Sr. No", toString n) :: (dropSr r).payload).filter
      (fun kv => !(kv.1 == "Sr. No"))) = (dropSr r).payload
  rw [List.filter_cons_of_neg (by simp)]
  exact filter_filter_self _ r.payload

/-- Every row of a decorated table is a decoration of a row of the
original table. -/
theorem mem_addSerialFrom {l : List ChipsetRecord} :
    ∀ {n : Nat} {r : ChipsetRecord}, r ∈ addSerialFrom n l →
      ∃ r0 ∈ l, ∃ m, r = decorate m r0 := by
  induction l with
  | nil => intro n r h; cases h
  | cons r0 rs ih =>
      intro n r h
      rcases List.mem_cons.mp h with h | h
      · exact ⟨r0, List.mem_cons_self r0 rs, n, h⟩
      · rcases ih h with ⟨r1, h1, m, hm⟩
        exact ⟨r1, List.mem_cons_of_mem _ h1, m, hm⟩

theorem mem_add_serial_number {l : List ChipsetRecord} {r : ChipsetRecord}
    (h : r ∈ add_serial_number l) :
    ∃ r0 ∈ l, r.chipsetSP = r0.chipsetSP ∧
      (dropSr r).payload = (dropSr r0).payload := by
  rcases mem_addSerialFrom h with ⟨r0, h0, m, hm⟩
  subst hm
  exact ⟨r0, h0, chipsetSP_decorate m r0, dropSr_decorate m r0⟩

/-- Every record emitted by the Added loop is a record of one of the
input periods. -/
theorem mem_period_of_mem_addedPass :
    ∀ (ps : List (List ChipsetRecord)) (u : List String)
      {r : ChipsetRecord}, r ∈ addedPass ps u → ∃ p ∈ ps, r ∈ p
  | [], _, _, h => absurd h (List.not_mem_nil _)
  | p :: rest, u, r, h => by
      simp only [addedPass] at h
      rcases List.mem_append.mp h with h | h
      · exact ⟨p, List.mem_cons_self p rest, (List.mem_filter.mp h).1⟩
      · rcases mem_period_of_mem_addedPass rest _ h with ⟨q, hq, hr⟩
        exact ⟨q, List.mem_cons_of_mem _ hq, hr⟩

theorem mem_period_of_mem_removedPass :
    ∀ (ps : List (List ChipsetRecord)) {r : ChipsetRecord},
      r ∈ removedPass ps → ∃ p ∈ ps, r ∈ p
  | [], _, h => absurd h (List.not_mem_nil _)
  | [_], _, h => absurd h (List.not_mem_nil _)
  | p :: q :: rest, r, h => by
      simp only [removedPass] at h
      rcases List.mem_append.mp h with h | h
      · exact ⟨p, List.mem_cons_self p (q :: rest), (List.mem_filter.mp h).1⟩
      · rcases mem_period_of_mem_removedPass (q :: rest) h with ⟨s, hs, hr⟩
        exact ⟨s, List.mem_cons_of_mem _ hs, hr⟩

theorem mem_period_of_mem_reappearedPass :
    ∀ (ps : List (List ChipsetRecord)) {r : ChipsetRecord},
      r ∈ reappearedPass ps → ∃ p ∈ ps, r ∈ p
  | [], _, h => absurd h (List.not_mem_nil _)
  | [_], _, h => absurd h (List.not_mem_nil _)
  | [_, _], _, h => absurd h (List.not_mem_nil _)
  | p0 :: p1 :: p2 :: rest, r, h => by
      simp only [reappearedPass] at h
      rcases List.mem_append.mp h with h | h
      · refine ⟨p2, ?_, (List.mem_filter.mp h).1⟩
        exact List.mem_cons_of_mem _
          (List.mem_cons_of_mem _ (List.mem_cons_self p2 rest))
      · rcases mem_period_of_mem_reappearedPass (p1 :: p2 :: rest) h with
          ⟨s, hs, hr⟩
        exact ⟨s, List.mem_cons_of_mem _ hs, hr⟩

/-- Every record emitted by the Added loop cleared an `isin` test, so its
identifier is not NaN. -/
theorem chipsetSP_ne_none_of_mem_addedPass :
    ∀ (ps : List (List ChipsetRecord)) (u : List String)
      {r : ChipsetRecord}, r ∈ addedPass ps u → r.chipsetSP ≠ none
  | [], _, _, h => absurd h (List.not_mem_nil _)
  | p :: rest, u, r, h => by
      simp only [addedPass] at h
      rcases List.mem_append.mp h with h | h
      · rcases memOpt_iff.mp (List.mem_filter.mp h).2 with ⟨a, ha, -⟩
        simp [ha]
      · exact chipsetSP_ne_none_of_mem_addedPass rest _ h

theorem chipsetSP_ne_none_of_mem_reappearedPass :
    ∀ (ps : List (List ChipsetRecord)) {r : ChipsetRecord},
      r ∈ reappearedPass ps → r.chipsetSP ≠ none
  | [], _, h => absurd h (List.not_mem_nil _)
  | [_], _, h => absurd h (List.not_mem_nil _)
  | [_, _], _, h => absurd h (List.not_mem_nil _)
  | _ :: p1 :: p2 :: rest, r, h => by
      simp only [reappearedPass] at h
      rcases List.mem_append.mp h with h | h
      · rcases memOpt_iff.mp (List.mem_filter.mp h).2 with ⟨a, ha, -⟩
        simp [ha]
      · exact chipsetSP_ne_none_of_mem_reappearedPass (p1 :: p2 :: rest) h

theorem chipsetSP_ne_none_of_mem_removedReconciled
    {ps : List (List ChipsetRecord)} {r : ChipsetRecord}
    (h : r ∈ removedReconciled ps) : r.chipsetSP ≠ none := by
  rcases memOpt_iff.mp (List.mem_filter.mp h).2 with ⟨a, ha, -⟩
  simp [ha]

/-! ## Claim theorems -/

/-- Claim C1: for every ordered input, a record of period `p_i` with
`i < n` is appended to the Removed candidate collection iff its identifier
is in `S_i` and absent from the union of all later periods' identifier
sets, and the last period contributes no candidates: the Removed candidate
loop (lines 40-47) produces exactly the record list prescribed by the
spec's per-period formula. -/
theorem claim_C1_removed_candidates (ps : List (List ChipsetRecord)) :
    removedPass ps = removedCandSpec ps :=
  removedPass_eq_spec ps

/-- Claim C2: the reconciliation pass keeps in Removed exactly the
candidates whose identifier is outside the union of all identifiers
classified as Reappeared and inside `S_1`, the first period's identifier
set; nothing else is discarded: lines 57-58 compute exactly the spec's
step-6 filter over the Removed candidates. -/
theorem claim_C2_reconciliation (ps : List (List ChipsetRecord)) :
    removedList ps = removedFinalSpec ps :=
  removedReconciled_eq_spec ps

/-- Claim C3: Added is a single ascending pass with a running union
initialized empty, appending at each period exactly the records whose
identifier is in `S_i − U`; in particular every record of the earliest
period with a non-excluded (non-NaN) identifier is an Added event. -/
theorem claim_C3_added (ps : List (List ChipsetRecord)) :
    addedList ps = addedSpec ps [] ∧
      ∀ p rest, ps = p :: rest → ∀ r ∈ p, r.chipsetSP ≠ none →
        r ∈ addedList ps := by
  refine ⟨addedPass_eq_spec ps [], ?_⟩
  rintro p rest rfl r hr hid
  rcases Option.ne_none_iff_exists'.mp hid with ⟨a, ha⟩
  show r ∈ addedPass (p :: rest) []
  simp only [addedPass]
  refine List.mem_append.mpr (Or.inl (List.mem_filter.mpr ⟨hr, ?_⟩))
  exact memOpt_iff.mpr
    ⟨a, ha, List.mem_filter.mpr ⟨mem_chipsetSet.mpr ⟨r, hr, ha⟩, rfl⟩⟩

/-- Witness for C3 at a concrete input: the sole record of a one-period
input, with identifier `"a"`, is an Added event. -/
theorem claim_C3_added_witness :
    (⟨some "a", []⟩ : ChipsetRecord) ∈ addedList [[⟨some "a", []⟩]] :=
  (claim_C3_added [[⟨some "a", []⟩]]).2 [⟨some "a", []⟩] [] rfl
    ⟨some "a", []⟩ (by decide) (by decide)

/-- Claim C4: the Reappeared loop evaluates each 3-period sliding window
independently, appending at period `p_i` (`i ≥ 3`) exactly the records
whose identifier is in `(S_{i−2} − S_{i−1}) ∩ S_i`; with fewer than three
periods Reappeared is empty. -/
theorem claim_C4_reappeared (ps : List (List ChipsetRecord)) :
    reappearedPass ps = reappearedSpec ps ∧
      (ps.length < 3 → reappearedPass ps = []) := by
  refine ⟨reappearedPass_eq_spec ps, ?_⟩
  intro h
  rcases ps with _ | ⟨p0, _ | ⟨p1, _ | ⟨p2, rest⟩⟩⟩
  · rfl
  · rfl
  · rfl
  · simp only [List.length_cons] at h
    omega

/-- Witness for C4 at a concrete input: a single-period input has an empty
Reappeared collection. -/
theorem claim_C4_reappeared_witness :
    reappearedPass [[(⟨some "a", []⟩ : ChipsetRecord)]] = [] :=
  (claim_C4_reappeared [[⟨some "a", []⟩]]).2 (by decide)

/-- Counterexample to claim C5 as stated: for the single period holding
one record whose identifier is NaN, Added is empty rather than all of the
period's records — a NaN identifier clears no `isin` test, so the record
is dropped from Added. -/
theorem claim_C5_counterexample :
    addedList [[(⟨none, []⟩ : ChipsetRecord)]] ≠ [⟨none, []⟩] := by
  decide

/-- Claim C5 as amended: for a single period `P`, Added equals the records
of `P` with a non-NaN identifier in their original order (records with a
null or missing identifier are dropped), and Removed and Reappeared are
empty. -/
theorem claim_C5_single_period (P : List ChipsetRecord) :
    addedList [P] = P.filter (fun r => r.chipsetSP.isSome) ∧
      removedList [P] = [] ∧ reappearedList [P] = [] := by
  refine ⟨?_, rfl, rfl⟩
  show addedPass [P] [] = _
  simp only [addedPass, List.append_nil]
  refine List.filter_congr (fun r hr => ?_)
  cases hsp : r.chipsetSP with
  | none => rfl
  | some a =>
      have ham : a ∈ chipsetSet P := mem_chipsetSet.mpr ⟨r, hr, hsp⟩
      have ha : (chipsetSet P).contains a = true := contains_iff.mpr ham
      simp [memOpt, contains_filter, ha, ham]

/-- Counterexample to claim C6 as stated: an empty-string identifier is
not excluded from the period's identifier set — only NaN values are
dropped, so the set differs from the claim's null-or-empty-excluding
set. -/
theorem claim_C6_counterexample :
    chipsetSet [(⟨some "", []⟩ : ChipsetRecord)] ≠
      chipsetSetExclEmpty [⟨some "", []⟩] := by
  decide

/-- Claim C6 as amended: the derived identifier set of a period contains
exactly the identifiers of its records that are non-null — only NaN or
missing values are excluded; an empty-string identifier is kept and
participates in classification like any other, and the period's raw
record collection is untouched. -/
theorem claim_C6_identifier_sets (recs : List ChipsetRecord) (a : String) :
    a ∈ chipsetSet recs ↔ ∃ r ∈ recs, r.chipsetSP = some a :=
  mem_chipsetSet

/-- Witness for C6 at a concrete input. -/
theorem claim_C6_identifier_sets_witness :
    "a" ∈ chipsetSet [(⟨some "a", []⟩ : ChipsetRecord)] :=
  (claim_C6_identifier_sets [⟨some "a", []⟩] "a").mpr
    ⟨⟨some "a", []⟩, by decide, rfl⟩

/-- Counterexample to claim C7 as stated: invoked on the empty mapping the
comparator raises no failure at all — no expression of the function is
reached that could raise, so no precondition failure is reported. -/
theorem claim_C7_counterexample :
    ¬ ∃ msg, compare_chipsetsRun [] = Except.error msg := by
  rintro ⟨msg, h⟩
  rw [show compare_chipsetsRun [] = Except.ok ([], [], []) from rfl] at h
  cases h

/-- Claim C7 as amended: on the empty mapping the comparator reports no
failure and returns three empty output collections. -/
theorem claim_C7_empty_input :
    compare_chipsetsRun [] = Except.ok ([], [], []) := rfl

/-- Claim C8: the comparator is deterministic — identical input mappings
give identical Added, Removed and Reappeared sequences.  The embedding is
deterministic by construction: the Python sets feeding the outputs are
consulted only through membership tests, and output order is DataFrame row
order, fixed by the ascending period order. -/
theorem claim_C8_deterministic (ps qs : List (List ChipsetRecord))
    (h : ps = qs) : compare_chipsets ps = compare_chipsets qs :=
  congrArg compare_chipsets h

/-- Witness for C8 at a concrete input. -/
theorem claim_C8_deterministic_witness :
    compare_chipsets [[(⟨some "a", []⟩ : ChipsetRecord)]] =
      compare_chipsets [[⟨some "a", []⟩]] :=
  claim_C8_deterministic _ _ rfl

/-- Counterexample to claim C9 as stated: a record carrying a field named
`Sr. No` with value `"99"` lands in Added with that field replaced by the
fresh display ordinal `"1"` — not every non-identifier field is carried
through unchanged. -/
theorem claim_C9_counterexample :
    (compare_chipsets [[⟨some "a", [("Sr. No", "99")]⟩]]).1 =
        [⟨some "a", [("Sr. No", "1")]⟩] ∧
      ("Sr. No", "99") ∉
        (⟨some "a", [("Sr. No", "1")]⟩ : ChipsetRecord).payload := by
  exact ⟨by decide, by decide⟩

/-- Claim C9 as amended: every record in any of the three output
collections comes from a record of one of the input periods with the same
identifier and the same payload outside the synthetic `Sr. No` column; any
input field named `Sr. No` is replaced by a fresh 1-based ordinal. -/
theorem claim_C9_payload_preserved (ps : List (List ChipsetRecord))
    (r : ChipsetRecord)
    (h : r ∈ (compare_chipsets ps).1 ∨ r ∈ (compare_chipsets ps).2.1 ∨
      r ∈ (compare_chipsets ps).2.2) :
    ∃ p ∈ ps, ∃ r0 ∈ p, r.chipsetSP = r0.chipsetSP ∧
      (dropSr r).payload = (dropSr r0).payload := by
  have main : ∀ l : List ChipsetRecord,
      (∀ r0 ∈ l, ∃ p ∈ ps, r0 ∈ p) → r ∈ add_serial_number l →
      ∃ p ∈ ps, ∃ r0 ∈ p, r.chipsetSP = r0.chipsetSP ∧
        (dropSr r).payload = (dropSr r0).payload := by
    intro l hl hr
    rcases mem_add_serial_number hr with ⟨r0, h0, hsp, hpl⟩
    rcases hl r0 h0 with ⟨p, hp, hr0⟩
    exact ⟨p, hp, r0, hr0, hsp, hpl⟩
  rcases h with h | h | h
  · exact main _ (fun r0 h0 => mem_period_of_mem_addedPass ps [] h0) h
  · refine main _ (fun r0 h0 => ?_) h
    have h1 : r0 ∈ removedReconciled ps := h0
    unfold removedReconciled at h1
    exact mem_period_of_mem_removedPass ps
      (List.mem_filter.mp (List.mem_filter.mp h1).1).1
  · exact main _ (fun r0 h0 => mem_period_of_mem_reappearedPass ps h0) h

/-- Witness for C9 at a concrete input: the decorated Added record traces
back to the input record, `Customer` field intact. -/
theorem claim_C9_payload_preserved_witness :
    ∃ p ∈ [[(⟨some "a", [("Customer", "c")]⟩ : ChipsetRecord)]],
      ∃ r0 ∈ p,
        (⟨some "a", [("Sr. No", "1"), ("Customer", "c")]⟩ :
            ChipsetRecord).chipsetSP = r0.chipsetSP ∧
        (dropSr ⟨some "a", [("Sr. No", "1"), ("Customer", "c")]⟩).payload =
          (dropSr r0).payload :=
  claim_C9_payload_preserved [[⟨some "a", [("Customer", "c")]⟩]]
    ⟨some "a", [("Sr. No", "1"), ("Customer", "c")]⟩ (Or.inl (by decide))

/-- Claim C10: every record appearing in any of the three output
collections has a non-null identifier — records whose `Chipset SP` is NaN
or missing are never emitted, though they may sit in the input
collections. -/
theorem claim_C10_no_null_identifier (ps : List (List ChipsetRecord))
    (r : ChipsetRecord)
    (h : r ∈ (compare_chipsets ps).1 ∨ r ∈ (compare_chipsets ps).2.1 ∨
      r ∈ (compare_chipsets ps).2.2) : r.chipsetSP ≠ none := by
  rcases h with h | h | h
  · rcases mem_add_serial_number h with ⟨r0, h0, hsp, -⟩
    rw [hsp]
    exact chipsetSP_ne_none_of_mem_addedPass ps [] h0
  · rcases mem_add_serial_number h with ⟨r0, h0, hsp, -⟩
    rw [hsp]
    exact chipsetSP_ne_none_of_mem_removedReconciled h0
  · rcases mem_add_serial_number h with ⟨r0, h0, hsp, -⟩
    rw [hsp]
    exact chipsetSP_ne_none_of_mem_reappearedPass ps h0

/-- Witness for C10 at a concrete input. -/
theorem claim_C10_no_null_identifier_witness :
    (⟨some "a", [("Sr. No", "1")]⟩ : ChipsetRecord).chipsetSP ≠ none :=
  claim_C10_no_null_identifier [[⟨some "a", []⟩]]
    ⟨some "a", [("Sr. No", "1")]⟩ (Or.inl (by decide))

